import Mathlib

/-!
Verification of the benchmark sweep engine of the
Minimal-k-Isomorphic-Subgraph-Extension repository.

The repository contains two benchmarking scripts,
`scripts/plot_runtime_vs_n2.py` (the n1-sweep script: it fixes n2 and
varies n1, comparing the exact and the approximate solver) and
`scripts/plot_approx_runtime_vs_n2.py` (the n2-sweep script: it fixes n1
and varies n2, benchmarking only the approximate solver).

The development below embeds, function by function, the sweep engine of
those scripts:

* `runCmd` — the Process Runner (`runCmd` in both scripts).  External
  process executions are modelled by `Proc`: a wall-clock duration
  (`none` meaning the child never terminates), an exit code and a
  combined output string.  `runCmd` returns `none` exactly when the
  Python call would block forever (no timeout set and the child never
  exits); otherwise it returns the pair `(returncode, combined_output)`,
  with the `subprocess.TimeoutExpired` handler modelled by the
  `timeout_returncode`/`timeout_message` branch.
* `time_solver_exact` / `time_solver_approx` — the Timed Invokers.  The
  two `time.perf_counter()` readings taken immediately before and after
  the `runCmd` call are passed in as `t0` and `t1`.
* `ensure_instance` / `instance_path` — the Instance Provisioner logic of
  `main` (cache check by path existence, generator invocation on miss,
  `RuntimeError` — modelled as `none` — on a non-zero generator exit).
* `pyRange` / `sweep_values` — the derivation
  `list(range(start, end + 1, step))` of the sweep sizes.  `pyRange`
  models CPython `range` semantics for a positive step.
* `mask_vals` / `plot_runtime_series` — the Series Renderer: the masking
  helper of `plot_runtime` and the `if x_exact: plt.plot(..., label=...)`
  series/legend emission.
* `sweepLoop` / `sweepRun` / `main_n1` — the Sweep Controller of the
  n1-sweep script: per sweep point, the cache check and generator call
  (aborting the whole run on generator failure), the early-stopped exact
  solver, and the always-invoked approximate solver.  The outcomes of the
  external calls are supplied by a `SweepEnv` oracle: `genExit v` is the
  exit status `generate_instance`'s `runCmd` call would report at sweep
  value `v`, and `exactOutcome v` / `approxOutcome v` are the values the
  Timed Invokers would return there.  `StepTrace` records, per sweep
  point, which processes were invoked and which outcomes were appended to
  the result lists.
* `sweepLoopA` / `sweepRunA` — the same controller for the n2-sweep
  script, which has no early-stop logic and only the approximate solver.
-/

namespace Harness

/-- One external process execution, as observed through `subprocess.run`:
its wall-clock duration (`none` if the child never terminates), its exit
code, and its combined stdout+stderr output. -/
structure Proc where
  duration : Option ℚ
  code : Int
  output : String

/-- The status code returned by `runCmd` when the timeout expires
(`return 124, f"TimeoutExpired: ..."` in both scripts). -/
def timeout_returncode : Int := 124

/-- The synthetic diagnostic message built by the `TimeoutExpired` handler
of `runCmd` (Python renders the exception as
`Command ... timed out after ... seconds`). -/
def timeout_message (cmd : List String) (t : ℚ) : String :=
  "TimeoutExpired: Command " ++ toString cmd ++ " timed out after " ++
    toString t ++ " seconds"

/-- The Process Runner `runCmd(cmd, cwd, timeout)` of both scripts.
Returns `some (returncode, combined_output)` when the Python call
returns, and `none` when it blocks forever (which happens exactly when no
timeout is set and the child never terminates).  When a timeout `t` is
set and the child does not finish within `t` seconds, the
`subprocess.TimeoutExpired` handler yields the reserved status together
with the synthetic diagnostic message; `runCmd` never raises on a
non-zero exit code (`check=False`). -/
def runCmd (cmd : List String) (cwd : String) (timeout : Option ℚ)
    (p : Proc) : Option (Int × String) :=
  match timeout with
  | none =>
    match p.duration with
    | none => none
    | some _ => some (p.code, p.output)
  | some t =>
    match p.duration with
    | none => some (timeout_returncode, timeout_message cmd t)
    | some d =>
      if t < d then some (timeout_returncode, timeout_message cmd t)
      else some (p.code, p.output)

/-- The project root directory (`PROJECT_ROOT` in both scripts); its
concrete value is irrelevant to every property below. -/
def project_root : String := "PROJECT_ROOT"

/-- Path of a release binary (`BIN_DIR / name` in both scripts). -/
def bin_path (name : String) : String :=
  project_root ++ "/target/release/" ++ name

/-- The command line built by `time_solver_exact` in the n1-sweep
script. -/
def exact_solver_cmd (inst : String) (k : Int) : List String :=
  [bin_path "exact-solver", "--input", inst, "--k", toString k]

/-- The command line built by `time_solver_approx` in the n1-sweep script
(the n2-sweep script differs only in the binary name
`approx_solver`). -/
def approx_solver_cmd (inst : String) (k : Int) (trials_multiplier : Int) :
    List String :=
  [bin_path "approx-solver", "--input", inst, "--k", toString k,
   "--trials-multiplier", toString trials_multiplier]

/-- The command line built by `generate_instance` in both scripts: the
fixed flag vocabulary with the `--noise` flag always set and the optional
`--seed`. -/
def generator_cmd (n1 n2 : Int) (density_g density_h : ℚ)
    (seed : Option Int) (output_path : String) : List String :=
  [bin_path "input-generator", "--n1", toString n1, "--n2", toString n2,
   "--density-g", toString density_g, "--density-h", toString density_h,
   "--noise", "--output", output_path] ++
  (match seed with
   | some s => ["--seed", toString s]
   | none => [])

/-- The build command issued by `ensure_built` in both scripts. -/
def build_cmd : List String := ["cargo", "build", "--release"]

/-- The Process Runner call made by `ensure_built`:
`runCmd(["cargo", "build", "--release"], PROJECT_ROOT)` — no timeout
argument, so the default `timeout=None` applies. -/
def ensure_built_run (p : Proc) : Option (Int × String) :=
  runCmd build_cmd project_root none p

/-- The Process Runner call made by `generate_instance`:
`runCmd(cmd, PROJECT_ROOT)` — again with the default `timeout=None`. -/
def generate_instance_run (n1 n2 : Int) (density_g density_h : ℚ)
    (seed : Option Int) (output_path : String) (p : Proc) :
    Option (Int × String) :=
  runCmd (generator_cmd n1 n2 density_g density_h seed output_path)
    project_root none p

/-- The Timed Invoker `time_solver_exact(instance_path, k,
timeout_seconds)` of the n1-sweep script.  `t0` and `t1` are the
`time.perf_counter()` readings taken immediately before and after the
`runCmd` call, so the elapsed time `t1 - t0` is measured strictly around
the Process Runner call.  On a non-zero status the captured output is
printed and `None` is returned; otherwise the elapsed time is
returned. -/
def time_solver_exact (inst : String) (k : Int) (timeout_seconds : ℚ)
    (t0 t1 : ℚ) (p : Proc) : Option ℚ :=
  match runCmd (exact_solver_cmd inst k) project_root
      (some timeout_seconds) p with
  | some (code, _out) => if code ≠ 0 then none else some (t1 - t0)
  | none => none

/-- The Timed Invoker `time_solver_approx(instance_path, k,
trials_multiplier, timeout_seconds)`; identical control flow to
`time_solver_exact`. -/
def time_solver_approx (inst : String) (k : Int) (trials_multiplier : Int)
    (timeout_seconds : ℚ) (t0 t1 : ℚ) (p : Proc) : Option ℚ :=
  match runCmd (approx_solver_cmd inst k trials_multiplier) project_root
      (some timeout_seconds) p with
  | some (code, _out) => if code ≠ 0 then none else some (t1 - t0)
  | none => none

/-- The instance cache directory (`GEN_DIR` in both scripts). -/
def gen_dir : String := project_root ++ "/examples/generated_benchmarks"

/-- The resolved cached-instance path for one sweep point:
`GEN_DIR / f"generated_\x7bn1\x7d_\x7bn2\x7d.txt"`.  The other generation
parameters in scope at the call site in `main` (densities, seed, noise
flag) are taken as arguments to expose the InstanceKey of the spec, but
the f-string uses only the two sizes. -/
def instance_path (n1 n2 : Int) (density_g density_h : ℚ)
    (seed : Option Int) (noise : Bool) : String :=
  gen_dir ++ "/generated_" ++ toString n1 ++ "_" ++ toString n2 ++ ".txt"

/-- The Instance Provisioner step of `main` in both scripts:
`if not instance_path.exists(): generate_instance(...)`.  The filesystem
is modelled as the set of existing paths `fs`; `gen_exit` is the exit
status the generator would report if invoked.  Returns
`some (generator_invoked, new_filesystem)`, where a successful generator
run materializes the file at `path` (the generator's `--output`
contract); a non-zero generator exit raises `RuntimeError`, modelled as
`none`. -/
def ensure_instance (fs : String → Bool) (gen_exit : Int) (path : String) :
    Option (Bool × (String → Bool)) :=
  if fs path then some (false, fs)
  else if gen_exit = 0 then
    some (true, fun q => if q = path then true else fs q)
  else none

/-- Number of elements of CPython `range(start, stop, step)` for a
positive step: `max(0, (stop - start + step - 1) // step)`. -/
def pyRangeLen (start stop step : Int) : Nat :=
  (max 0 ((stop - start + step - 1) / step)).toNat

/-- CPython `range(start, stop, step)` as a list, for a positive step:
element `i` is `start + step * i`. -/
def pyRange (start stop step : Int) : List Int :=
  (List.range (pyRangeLen start stop step)).map
    (fun i : ℕ => start + step * (i : Int))

/-- The sweep-size derivation of both scripts:
`list(range(start, end + 1, step))` (line 208 of the n1-sweep script,
line 182 of the n2-sweep script). -/
def sweep_values (start e step : Int) : List Int :=
  pyRange start (e + 1) step

/-- The masking helper `mask_vals(xs, ys)` defined inside `plot_runtime`
of the n1-sweep script (the n2-sweep script inlines the identical loop):
keeps, in order, the pairs whose elapsed value is not `None` and strictly
positive, returning the kept xs and ys as two lists. -/
def mask_vals : List Int → List (Option ℚ) → List Int × List ℚ
  | x :: xs, y :: ys =>
    match y with
    | some v =>
      if 0 < v then
        (x :: (mask_vals xs ys).1, v :: (mask_vals xs ys).2)
      else mask_vals xs ys
    | none => mask_vals xs ys
  | _, _ => ([], [])

/-- Spec-side description of the plotted points (spec §4.5): exactly the
`(size, elapsed)` pairs of the zipped input whose elapsed value is
present and strictly positive, in their original relative order.  Written
from the spec's words, to be compared with `mask_vals`. -/
def spec_plotted_points (xs : List Int) (ys : List (Option ℚ)) :
    List (Int × ℚ) :=
  (xs.zip ys).filterMap fun p =>
    match p.2 with
    | some v => if 0 < v then some (p.1, v) else none
    | none => none

/-- Whether one elapsed-time value survives the Series Renderer's mask
(`y is not None and y > 0`). -/
def keep_point : Option ℚ → Bool
  | some v => decide (0 < v)
  | none => false

/-- One plotted series: its legend label and its point coordinates. -/
structure PlotSeries where
  label : String
  xs : List Int
  ys : List ℚ
deriving DecidableEq

/-- The series/legend emission of `plot_runtime` in the n1-sweep script:
`plt.plot(..., label="Exact")` runs only under `if x_exact:` (Python
truthiness: the masked list is non-empty), and likewise for the
approximation series, so a fully-masked series contributes no plotted
points and no legend entry. -/
def plot_runtime_series (n1_values : List Int)
    (exact_times approx_times : List (Option ℚ)) : List PlotSeries :=
  (if (mask_vals n1_values exact_times).1.isEmpty then []
   else [{ label := "Exact", xs := (mask_vals n1_values exact_times).1,
           ys := (mask_vals n1_values exact_times).2 }]) ++
  (if (mask_vals n1_values approx_times).1.isEmpty then []
   else [{ label := "Approximation",
           xs := (mask_vals n1_values approx_times).1,
           ys := (mask_vals n1_values approx_times).2 }])

/-- Oracle for the external world seen by the n1-sweep script's `main`
loop, indexed by the sweep value `n1`: whether the cached instance file
already exists, the exit status the generator would report, and the
values `time_solver_exact` / `time_solver_approx` would return. -/
structure SweepEnv where
  fileExists : Int → Bool
  genExit : Int → Int
  exactOutcome : Int → Option ℚ
  approxOutcome : Int → Option ℚ

/-- Per-sweep-point trace of the n1-sweep script's `main` loop: which
external programs were invoked and which outcomes were appended to
`exact_times` / `approx_times`. -/
structure StepTrace where
  n1 : Int
  genInvoked : Bool
  exactInvoked : Bool
  exactTime : Option ℚ
  approxInvoked : Bool
  approxTime : Option ℚ
deriving DecidableEq

/-- The sweep loop of the n1-sweep script's `main` (lines 218-238),
threading the `exact_failed` flag: per point, the cache check and
generator call (`none` models the uncaught `RuntimeError` aborting the
run on a non-zero generator exit); then, unless `exact_failed`, the exact
solver is invoked and its outcome recorded (`None` setting the flag),
else `None` is recorded without an invocation; then the approximate
solver is always invoked. -/
def sweepLoop (env : SweepEnv) : List Int → Bool → Option (List StepTrace)
  | [], _ => some []
  | v :: rest, exactFailed =>
    if !env.fileExists v && !(env.genExit v == 0) then none
    else
      (sweepLoop env rest
          (if exactFailed then none else env.exactOutcome v).isNone).map
        fun ts =>
          { n1 := v, genInvoked := !env.fileExists v,
            exactInvoked := !exactFailed,
            exactTime := if exactFailed then none else env.exactOutcome v,
            approxInvoked := true,
            approxTime := env.approxOutcome v } :: ts

/-- The whole sweep of the n1-sweep script's `main`: the derived sweep
sizes, processed with the `exact_failed` flag initially `False`. -/
def sweepRun (env : SweepEnv) (start e step : Int) :
    Option (List StepTrace) :=
  sweepLoop env (sweep_values start e step) false

/-- Result of the n1-sweep script's `main`: either the `RuntimeError`
raised on generator failure propagates (non-zero process exit, `savefig`
never reached, no figure file), or the loop completes and the figure is
written from the accumulated result lists. -/
inductive MainResult where
  | aborted
  | figureSaved (exact_times approx_times : List (Option ℚ))
deriving DecidableEq

/-- The n1-sweep script's `main` after argument parsing and
`ensure_built`: runs the sweep, then (only on completion) calls
`plot_runtime` with the accumulated `exact_times` / `approx_times`. -/
def main_n1 (env : SweepEnv) (start e step : Int) : MainResult :=
  match sweepRun env start e step with
  | none => MainResult.aborted
  | some ts =>
    MainResult.figureSaved (ts.map StepTrace.exactTime)
      (ts.map StepTrace.approxTime)

/-- Oracle for the external world seen by the n2-sweep script's `main`
loop, indexed by the sweep value `n2`. -/
structure SweepEnvA where
  fileExists : Int → Bool
  genExit : Int → Int
  approxOutcome : Int → Option ℚ

/-- Per-sweep-point trace of the n2-sweep script's `main` loop. -/
structure StepTraceA where
  n2 : Int
  genInvoked : Bool
  approxInvoked : Bool
  approxTime : Option ℚ
deriving DecidableEq

/-- The sweep loop of the n2-sweep script's `main` (lines 191-201): the
same cache/generator step, then the approximate solver invoked
unconditionally at every point — there is no early-stop state at all. -/
def sweepLoopA (env : SweepEnvA) : List Int → Option (List StepTraceA)
  | [] => some []
  | v :: rest =>
    if !env.fileExists v && !(env.genExit v == 0) then none
    else
      (sweepLoopA env rest).map fun ts =>
        { n2 := v, genInvoked := !env.fileExists v,
          approxInvoked := true,
          approxTime := env.approxOutcome v } :: ts

/-- The whole sweep of the n2-sweep script's `main`. -/
def sweepRunA (env : SweepEnvA) (start e step : Int) :
    Option (List StepTraceA) :=
  sweepLoopA env (sweep_values start e step)

/-- Concrete process execution used to instantiate the Timed Invoker
properties: finishes after one second with exit code 0. -/
def wit_proc_ok : Proc := { duration := some 1, code := 0, output := "ok" }

/-- Concrete process execution used to instantiate the untimed
build/generator calls: finishes after five seconds with exit code 7. -/
def wit_proc_slow : Proc :=
  { duration := some 5, code := 7, output := "built" }

/-- Concrete oracle in which every instance file is cached, the exact
solver fails at every sweep point and the approximate solver succeeds in
one second. -/
def wit_env1 : SweepEnv :=
  { fileExists := fun _ => true, genExit := fun _ => 0,
    exactOutcome := fun _ => none, approxOutcome := fun _ => some 1 }

/-- The trace produced by the n1-sweep loop under `wit_env1` on the sweep
`[2, 3]`: the exact solver is invoked and fails at the first point, and
is skipped (with `Failure` recorded) at the second. -/
def wit_ts1 : List StepTrace :=
  [{ n1 := 2, genInvoked := false, exactInvoked := true, exactTime := none,
     approxInvoked := true, approxTime := some 1 },
   { n1 := 3, genInvoked := false, exactInvoked := false, exactTime := none,
     approxInvoked := true, approxTime := some 1 }]

/-- Concrete oracle in which no instance file is cached and the generator
always fails with exit code 1. -/
def wit_env4 : SweepEnv :=
  { fileExists := fun _ => false, genExit := fun _ => 1,
    exactOutcome := fun _ => some 1, approxOutcome := fun _ => some 1 }

/-- Concrete oracle for the n2-sweep script: everything cached, the
approximate solver succeeds in two seconds. -/
def wit_envA : SweepEnvA :=
  { fileExists := fun _ => true, genExit := fun _ => 0,
    approxOutcome := fun _ => some 2 }

/-- The trace produced by the n2-sweep loop under `wit_envA` on the sweep
`[2, 3]`. -/
def wit_tsA : List StepTraceA :=
  [{ n2 := 2, genInvoked := false, approxInvoked := true,
     approxTime := some 2 },
   { n2 := 3, genInvoked := false, approxInvoked := true,
     approxTime := some 2 }]

/-- Concrete filesystem with no files. -/
def wit_fs0 : String → Bool := fun _ => false

/-- Concrete target path for the provisioning witnesses. -/
def wit_path : String := "generated_8_25.txt"

/-- The filesystem obtained after a first successful provisioning of
`wit_path` on the empty filesystem. -/
def wit_fs1 : String → Bool := fun q => if q = wit_path then true else wit_fs0 q

/-- C2 (amended): for every command, working directory and positive
timeout, the Process Runner returns a status and a combined output string
without raising on a non-zero exit; on timeout expiry (the child not
finishing within the budget) it returns the status `timeout_returncode`
(124) together with the synthetic `TimeoutExpired` diagnostic message,
and when the child finishes within the budget it returns the child's own
exit status and output unchanged.  (The original claim's assertion that
the timeout status is distinct from any exit code a real process can
return is refuted by `claim2_counterexample`.) -/
theorem claim2_process_runner (cmd : List String) (cwd : String) (p : Proc)
    (t : ℚ) (ht : 0 < t) :
    (∃ code outp, runCmd cmd cwd (some t) p = some (code, outp)) ∧
    ((∀ d, p.duration = some d → t < d) →
      runCmd cmd cwd (some t) p
        = some (timeout_returncode, timeout_message cmd t)) ∧
    (∀ d, p.duration = some d → d ≤ t →
      runCmd cmd cwd (some t) p = some (p.code, p.output)) := by
  refine ⟨?_, ?_, ?_⟩
  · cases hd : p.duration with
    | none => exact ⟨timeout_returncode, timeout_message cmd t, by
        simp [runCmd, hd]⟩
    | some d =>
      by_cases hlt : t < d
      · exact ⟨timeout_returncode, timeout_message cmd t, by
          simp [runCmd, hd, hlt]⟩
      · exact ⟨p.code, p.output, by simp [runCmd, hd, hlt]⟩
  · intro h
    cases hd : p.duration with
    | none => simp [runCmd, hd]
    | some d => simp [runCmd, hd, h d hd]
  · intro d hd hdt
    simp [runCmd, hd, not_lt.mpr hdt]

/-- Witness for C2 (amended) at a concrete command, directory, process
and timeout. -/
theorem claim2_process_runner_witness :
    (0 : ℚ) < 30 ∧
    runCmd ["cargo"] "." (some 30) wit_proc_slow
      = some (wit_proc_slow.code, wit_proc_slow.output) := by
  refine ⟨by norm_num, ?_⟩
  exact (claim2_process_runner ["cargo"] "." wit_proc_slow 30
    (by norm_num)).2.2 5 rfl (by norm_num)

/-- C2 counterexample: a process that really completes (in one second,
well within the 30-second budget) with exit status 124 — an exit code any
real process can produce — makes the Process Runner return exactly the
reserved timeout status, so the timeout status is not distinct from every
exit code a real process can return. -/
theorem claim2_counterexample :
    runCmd ["exact-solver"] "." (some 30)
        { duration := some 1, code := 124, output := "ordinary output" }
      = some (timeout_returncode, "ordinary output") := by
  norm_num [runCmd, timeout_returncode]

/-- C5: the Timed Invokers return `Failure` (`None`) iff the Process
Runner's status is non-zero (which includes the reserved timeout status);
on a zero status they return the wall-clock time `t1 - t0` measured by
the `perf_counter` readings taken strictly around the Process Runner
call; and the captured process output never influences the returned
outcome. -/
theorem claim5_timed_invoker (inst : String) (k tm : Int) (ts t0 t1 : ℚ)
    (p : Proc) (st sta : Int) (outp outpa : String)
    (hex : runCmd (exact_solver_cmd inst k) project_root (some ts) p
      = some (st, outp))
    (hap : runCmd (approx_solver_cmd inst k tm) project_root (some ts) p
      = some (sta, outpa)) :
    (time_solver_exact inst k ts t0 t1 p = none ↔ st ≠ 0) ∧
    (st = 0 → time_solver_exact inst k ts t0 t1 p = some (t1 - t0)) ∧
    (time_solver_approx inst k tm ts t0 t1 p = none ↔ sta ≠ 0) ∧
    (sta = 0 → time_solver_approx inst k tm ts t0 t1 p = some (t1 - t0)) ∧
    ((∀ d, p.duration = some d → ts < d) →
      time_solver_exact inst k ts t0 t1 p = none) ∧
    (∀ outp2,
      time_solver_exact inst k ts t0 t1
          { duration := p.duration, code := p.code, output := outp2 }
        = time_solver_exact inst k ts t0 t1 p) := by
  refine ⟨?_, ?_, ?_, ?_, ?_, ?_⟩
  · by_cases h : st = 0 <;> simp [time_solver_exact, hex, h]
  · intro h; simp [time_solver_exact, hex, h]
  · by_cases h : sta = 0 <;> simp [time_solver_approx, hap, h]
  · intro h; simp [time_solver_approx, hap, h]
  · intro h
    cases hd : p.duration with
    | none =>
      simp [time_solver_exact, runCmd, hd, timeout_returncode]
    | some d =>
      simp [time_solver_exact, runCmd, hd, h d hd, timeout_returncode]
  · intro outp2
    cases hd : p.duration with
    | none => simp [time_solver_exact, runCmd, hd]
    | some d =>
      by_cases hlt : ts < d <;>
        simp [time_solver_exact, runCmd, hd, hlt, timeout_returncode]

/-- Witness for C5 at a concrete instance path, parameters, clock
readings and a successfully terminating process. -/
theorem claim5_timed_invoker_witness :
    time_solver_exact "generated_2_25.txt" 2 30 1 3 wit_proc_ok
      = some (3 - 1) := by
  refine (claim5_timed_invoker "generated_2_25.txt" 2 10 30 1 3 wit_proc_ok
    0 0 "ok" "ok" ?_ ?_).2.1 rfl
  · norm_num [runCmd, wit_proc_ok]
  · norm_num [runCmd, wit_proc_ok]

/-- The masking loop keeps exactly the zipped pairs whose elapsed value
is present and strictly positive, in their original order. -/
theorem mask_vals_eq_spec :
    ∀ (xs : List Int) (ys : List (Option ℚ)),
      (mask_vals xs ys).1.zip (mask_vals xs ys).2 = spec_plotted_points xs ys
  | [], ys => by cases ys <;> simp [mask_vals, spec_plotted_points]
  | _ :: _, [] => by simp [mask_vals, spec_plotted_points]
  | x :: xs, y :: ys => by
    cases y with
    | none =>
      simpa [mask_vals, spec_plotted_points] using mask_vals_eq_spec xs ys
    | some v =>
      by_cases hv : 0 < v
      · simpa [mask_vals, spec_plotted_points, hv] using
          mask_vals_eq_spec xs ys
      · simpa [mask_vals, spec_plotted_points, hv] using
          mask_vals_eq_spec xs ys

/-- A series whose every elapsed value is masked (absent, zero or
negative) survives the masking loop as the empty series. -/
theorem mask_vals_all_masked :
    ∀ (xs : List Int) (ys : List (Option ℚ)),
      (∀ y ∈ ys, keep_point y = false) → mask_vals xs ys = ([], [])
  | [], ys, _ => by cases ys <;> rfl
  | _ :: _, [], _ => rfl
  | x :: xs, y :: ys, h => by
    have hy := h y (List.mem_cons_self y ys)
    have hrest : ∀ z ∈ ys, keep_point z = false := fun z hz =>
      h z (List.mem_cons_of_mem y hz)
    cases y with
    | none => simpa [mask_vals] using mask_vals_all_masked xs ys hrest
    | some v =>
      have hv : ¬ 0 < v := by simpa [keep_point] using hy
      simpa [mask_vals, hv] using mask_vals_all_masked xs ys hrest

/-- C6: the Series Renderer plots exactly the `(size, elapsed)` pairs of
the zipped input whose elapsed value is present and strictly positive, in
their original relative order (`mask_vals` agrees with the spec-side
`spec_plotted_points`); a series whose every point is absent, zero or
negative contributes zero plotted points and its label is omitted from
the legend (the `"Exact"` series is emitted only under `if x_exact:`),
with no error raised. -/
theorem claim6_series_masking (xs : List Int) (ys ys2 : List (Option ℚ)) :
    ((mask_vals xs ys).1.zip (mask_vals xs ys).2 = spec_plotted_points xs ys) ∧
    ((∀ y ∈ ys, keep_point y = false) → mask_vals xs ys = ([], [])) ∧
    ((∀ y ∈ ys, keep_point y = false) →
      ∀ s ∈ plot_runtime_series xs ys ys2, s.label ≠ "Exact") := by
  refine ⟨mask_vals_eq_spec xs ys, fun h => mask_vals_all_masked xs ys h, ?_⟩
  intro h s hs
  have hmask := mask_vals_all_masked xs ys h
  simp only [plot_runtime_series, hmask, List.isEmpty_nil, if_true,
    List.nil_append] at hs
  split at hs
  · simp at hs
  · rw [List.mem_singleton] at hs
    subst hs
    show "Approximation" ≠ "Exact"
    decide

/-- Witness for C6 at a concrete sweep and fully-masked series. -/
theorem claim6_series_masking_witness :
    mask_vals [2, 3] [some 0, none] = ([], []) :=
  (claim6_series_masking [2, 3] [some 0, none] []).2.1 (by decide)

/-- C7: instance provisioning is idempotent per target path: if the
instance file already exists the provisioning step returns immediately
without invoking the generator, and after any successful provisioning
call a second call on the same path is a no-op that performs no
generation. -/
theorem claim7_provision_idempotent (fs : String → Bool) (g g2 : Int)
    (path : String) :
    (fs path = true → ensure_instance fs g path = some (false, fs)) ∧
    (∀ invoked fs2, ensure_instance fs g path = some (invoked, fs2) →
      ensure_instance fs2 g2 path = some (false, fs2)) := by
  constructor
  · intro h; simp [ensure_instance, h]
  · intro invoked fs2 h
    by_cases hex : fs path
    · simp only [ensure_instance, hex, if_true, Option.some.injEq,
        Prod.mk.injEq] at h
      obtain ⟨-, h2⟩ := h
      subst h2
      simp [ensure_instance, hex]
    · by_cases hg : g = 0
      · simp only [ensure_instance, hex, Bool.false_eq_true, if_false, hg,
          if_true, Option.some.injEq, Prod.mk.injEq] at h
        obtain ⟨-, h2⟩ := h
        subst h2
        simp [ensure_instance]
      · simp [ensure_instance, hex, hg] at h

/-- Witness for C7: provisioning `wit_path` on the empty filesystem
generates it, and the follow-up call is a generation-free no-op. -/
theorem claim7_provision_idempotent_witness :
    ensure_instance wit_fs1 5 wit_path = some (false, wit_fs1) :=
  (claim7_provision_idempotent wit_fs0 0 5 wit_path).2 true wit_fs1 rfl

/-- C8: the cached instance file path depends only on the two size
parameters: any drift in the densities, the seed or the noise flag leaves
the resolved path unchanged, and an instance cached under one parameter
set is a cache hit (no generator invocation) for any other parameter set
with the same sizes. -/
theorem claim8_cache_key (n1 n2 : Int) (dg dh dg2 dh2 : ℚ)
    (seed seed2 : Option Int) (noise noise2 : Bool) (g : Int) :
    instance_path n1 n2 dg dh seed noise
      = instance_path n1 n2 dg2 dh2 seed2 noise2 ∧
    (∀ fs : String → Bool,
      fs (instance_path n1 n2 dg dh seed noise) = true →
      ensure_instance fs g (instance_path n1 n2 dg2 dh2 seed2 noise2)
        = some (false, fs)) := by
  refine ⟨rfl, ?_⟩
  intro fs h
  have hp : instance_path n1 n2 dg2 dh2 seed2 noise2
      = instance_path n1 n2 dg dh seed noise := rfl
  rw [hp]
  simp [ensure_instance, h]

/-- Witness for C8 at concrete sizes and drifting parameters. -/
theorem claim8_cache_key_witness :
    ensure_instance (fun q => decide (q = instance_path 8 25 (35/100)
        (20/100) (some 12345) true)) 3
        (instance_path 8 25 (1/2) (3/4) none false)
      = some (false, fun q => decide (q = instance_path 8 25 (35/100)
          (20/100) (some 12345) true)) := by
  refine (claim8_cache_key 8 25 (35/100) (20/100) (1/2) (3/4)
    (some 12345) none true false 3).2
    (fun q => decide (q = instance_path 8 25 (35/100) (20/100)
      (some 12345) true)) ?_
  simp

/-- C10: only solver invocations carry a time budget: the build step and
the generator step call the Process Runner with `timeout = None`, so
their result is always the child's own status and output (never the
synthetic timeout classification), and if the child never terminates the
call blocks forever. -/
theorem claim10_gen_build_untimed (n1 n2 : Int) (dg dh : ℚ)
    (seed : Option Int) (outp : String) (p : Proc) :
    (∀ d, p.duration = some d →
      ensure_built_run p = some (p.code, p.output) ∧
      generate_instance_run n1 n2 dg dh seed outp p
        = some (p.code, p.output)) ∧
    (p.duration = none →
      ensure_built_run p = none ∧
      generate_instance_run n1 n2 dg dh seed outp p = none) := by
  constructor
  · intro d hd
    constructor <;> simp [ensure_built_run, generate_instance_run, runCmd, hd]
  · intro hd
    constructor <;> simp [ensure_built_run, generate_instance_run, runCmd, hd]

/-- Witness for C10: the slow build process (five seconds, far beyond any
solver budget) still reports its own exit status and output. -/
theorem claim10_gen_build_untimed_witness :
    ensure_built_run wit_proc_slow
        = some (wit_proc_slow.code, wit_proc_slow.output) ∧
    generate_instance_run 8 25 (35/100) (20/100) (some 12345) "out.txt"
        wit_proc_slow
      = some (wit_proc_slow.code, wit_proc_slow.output) :=
  (claim10_gen_build_untimed 8 25 (35/100) (20/100) (some 12345) "out.txt"
    wit_proc_slow).1 5 rfl

/-- A run of the n1-sweep loop records one step per processed sweep
value. -/
theorem sweepLoop_length (env : SweepEnv) :
    ∀ (l : List Int) (b : Bool) (ts : List StepTrace),
      sweepLoop env l b = some ts → ts.length = l.length
  | [], _, ts, h => by
    simp only [sweepLoop, Option.some.injEq] at h
    subst h
    rfl
  | v :: rest, b, ts, h => by
    simp only [sweepLoop] at h
    split at h
    · simp at h
    · rcases Option.map_eq_some'.mp h with ⟨ts0, hrec, hts⟩
      subst hts
      simp [sweepLoop_length env rest _ ts0 hrec]

/-- Once the `exact_failed` flag is set, every remaining step of the
n1-sweep loop records `Failure` for the exact solver without invoking
it. -/
theorem sweepLoop_stopped (env : SweepEnv) :
    ∀ (l : List Int) (ts : List StepTrace),
      sweepLoop env l true = some ts →
      ∀ x ∈ ts, x.exactTime = none ∧ x.exactInvoked = false
  | [], ts, h => by
    simp only [sweepLoop, Option.some.injEq] at h
    subst h
    intro x hx
    simp at hx
  | v :: rest, ts, h => by
    simp only [sweepLoop] at h
    split at h
    · simp at h
    · rcases Option.map_eq_some'.mp h with ⟨ts0, hrec, hts⟩
      subst hts
      intro x hx
      rcases List.mem_cons.mp hx with rfl | hx
      · exact ⟨rfl, rfl⟩
      · have hrec2 : sweepLoop env rest true = some ts0 := by
          simpa using hrec
        exact sweepLoop_stopped env rest ts0 hrec2 x hx

/-- Early-stop monotonicity at loop level: if the step at index `i`
records an exact-solver `Failure`, then every later recorded step also
records `Failure` and performs no exact-solver invocation. -/
theorem sweepLoop_early_stop (env : SweepEnv) :
    ∀ (l : List Int) (b : Bool) (ts : List StepTrace),
      sweepLoop env l b = some ts →
      ∀ i j (hi : i < ts.length) (hj : j < ts.length), i < j →
        (ts.get ⟨i, hi⟩).exactTime = none →
        (ts.get ⟨j, hj⟩).exactTime = none ∧
        (ts.get ⟨j, hj⟩).exactInvoked = false
  | [], _, ts, h => by
    simp only [sweepLoop, Option.some.injEq] at h
    subst h
    intro i j hi hj
    simp at hi
  | v :: rest, b, ts, h => by
    simp only [sweepLoop] at h
    split at h
    · simp at h
    · rcases Option.map_eq_some'.mp h with ⟨ts0, hrec, hts⟩
      subst hts
      intro i j hi hj hij hnone
      cases j with
      | zero => omega
      | succ j =>
        cases i with
        | zero =>
          have hflag : (if b then none else env.exactOutcome v)
              = (none : Option ℚ) := by
            simpa using hnone
          rw [hflag] at hrec
          have hrec2 : sweepLoop env rest true = some ts0 := by
            simpa using hrec
          have hall := sweepLoop_stopped env rest ts0 hrec2
          have hj2 : j < ts0.length := by simpa using hj
          have hmem := List.get_mem ts0 j hj2
          simpa using hall _ hmem
        | succ i =>
          have hi2 : i < ts0.length := by simpa using hi
          have hj2 : j < ts0.length := by simpa using hj
          have hn2 : (ts0.get ⟨i, hi2⟩).exactTime = none := by
            simpa using hnone
          have := sweepLoop_early_stop env rest _ ts0 hrec i j hi2 hj2
            (Nat.lt_of_succ_lt_succ hij) hn2
          simpa using this

/-- The n1-sweep loop aborts exactly when some processed sweep value
needs generation and the generator fails there. -/
theorem sweepLoop_none_iff (env : SweepEnv) :
    ∀ (l : List Int) (b : Bool),
      sweepLoop env l b = none ↔
        ∃ v ∈ l, env.fileExists v = false ∧ env.genExit v ≠ 0
  | [], _ => by simp [sweepLoop]
  | v :: rest, b => by
    simp only [sweepLoop]
    cases hcond : (!env.fileExists v && !(env.genExit v == 0)) with
    | true =>
      have hc : env.fileExists v = false ∧ env.genExit v ≠ 0 := by
        have hc2 := hcond
        simp only [Bool.and_eq_true, Bool.not_eq_true'] at hc2
        exact ⟨hc2.1, by simpa using hc2.2⟩
      rw [if_pos rfl]
      constructor
      · intro _
        exact ⟨v, List.mem_cons_self v rest, hc⟩
      · intro _
        rfl
    | false =>
      rw [if_neg (by simp)]
      rw [Option.map_eq_none', sweepLoop_none_iff env rest _]
      have hnc : ¬(env.fileExists v = false ∧ env.genExit v ≠ 0) := by
        rintro ⟨h1, h2⟩
        simp [h1, h2] at hcond
      constructor
      · rintro ⟨x, hx, p⟩
        exact ⟨x, List.mem_cons_of_mem v hx, p⟩
      · rintro ⟨x, hx, p⟩
        rcases List.mem_cons.mp hx with rfl | hx
        · exact absurd p hnc
        · exact ⟨x, hx, p⟩

/-- Every recorded step of the n1-sweep loop carries exactly one
approximate-solver invocation, with the oracle's outcome recorded. -/
theorem sweepLoop_approx (env : SweepEnv) :
    ∀ (l : List Int) (b : Bool) (ts : List StepTrace),
      sweepLoop env l b = some ts →
      ∀ x ∈ ts, x.approxInvoked = true ∧
        x.approxTime = env.approxOutcome x.n1
  | [], _, ts, h => by
    simp only [sweepLoop, Option.some.injEq] at h
    subst h
    intro x hx
    simp at hx
  | v :: rest, b, ts, h => by
    simp only [sweepLoop] at h
    split at h
    · simp at h
    · rcases Option.map_eq_some'.mp h with ⟨ts0, hrec, hts⟩
      subst hts
      intro x hx
      rcases List.mem_cons.mp hx with rfl | hx
      · exact ⟨rfl, rfl⟩
      · exact sweepLoop_approx env rest _ ts0 hrec x hx

/-- The n2-sweep loop records one step per processed value, and every
recorded step carries exactly one approximate-solver invocation. -/
theorem sweepLoopA_run (env : SweepEnvA) :
    ∀ (l : List Int) (ts : List StepTraceA),
      sweepLoopA env l = some ts →
      ts.length = l.length ∧
      ∀ x ∈ ts, x.approxInvoked = true ∧
        x.approxTime = env.approxOutcome x.n2
  | [], ts, h => by
    simp only [sweepLoopA, Option.some.injEq] at h
    subst h
    exact ⟨rfl, by intro x hx; simp at hx⟩
  | v :: rest, ts, h => by
    simp only [sweepLoopA] at h
    split at h
    · simp at h
    · rcases Option.map_eq_some'.mp h with ⟨ts0, hrec, hts⟩
      subst hts
      obtain ⟨hlen, hall⟩ := sweepLoopA_run env rest ts0 hrec
      refine ⟨by simp [hlen], ?_⟩
      intro x hx
      rcases List.mem_cons.mp hx with rfl | hx
      · exact ⟨rfl, rfl⟩
      · exact hall x hx

/-- C1: early-stop monotonicity in the n1-sweep script: for every sweep
and every pair of indices `i < j` of the recorded result table, if the
exact-solver outcome recorded at index `i` is `Failure` (`None`), then
the outcome recorded at index `j` is also `Failure` and the exact solver
process is not invoked at index `j`. -/
theorem claim1_early_stop (env : SweepEnv) (start e step : Int)
    (ts : List StepTrace) (h : sweepRun env start e step = some ts)
    (i j : ℕ) (hi : i < ts.length) (hj : j < ts.length) (hij : i < j)
    (hfail : (ts.get ⟨i, hi⟩).exactTime = none) :
    (ts.get ⟨j, hj⟩).exactTime = none ∧
    (ts.get ⟨j, hj⟩).exactInvoked = false :=
  sweepLoop_early_stop env (sweep_values start e step) false ts h i j hi hj
    hij hfail

/-- Witness for C1: under `wit_env1` the exact solver fails at index 0 of
the sweep `[2, 3]`, and at index 1 the loop records `Failure` without an
invocation. -/
theorem claim1_early_stop_witness :
    sweepRun wit_env1 2 3 1 = some wit_ts1 ∧
    ((wit_ts1.get ⟨1, by decide⟩).exactTime = none ∧
     (wit_ts1.get ⟨1, by decide⟩).exactInvoked = false) :=
  ⟨by decide,
   claim1_early_stop wit_env1 2 3 1 wit_ts1 (by decide) 0 1 (by decide)
     (by decide) (by decide) (by decide)⟩

/-- C4: the n1-sweep run aborts (non-zero process exit, no figure file
written) precisely when some sweep point's instance is missing and the
generator fails there; in particular solver failures alone never abort
the run, and a generator failure is neither masked nor retried. -/
theorem claim4_generation_fatal (env : SweepEnv) (start e step : Int) :
    main_n1 env start e step = MainResult.aborted ↔
      ∃ v ∈ sweep_values start e step,
        env.fileExists v = false ∧ env.genExit v ≠ 0 := by
  cases hrec : sweepLoop env (sweep_values start e step) false with
  | none =>
    simp only [main_n1, sweepRun, hrec]
    exact iff_of_true trivial
      ((sweepLoop_none_iff env (sweep_values start e step) false).mp hrec)
  | some ts =>
    simp only [main_n1, sweepRun, hrec]
    constructor
    · intro hcontra
      exact MainResult.noConfusion hcontra
    · intro hex
      have habort :=
        (sweepLoop_none_iff env (sweep_values start e step) false).mpr hex
      rw [habort] at hrec
      exact Option.noConfusion hrec

/-- Witness for C4: with no cached instances and a generator that always
fails, the run aborts. -/
theorem claim4_generation_fatal_witness :
    main_n1 wit_env4 2 3 1 = MainResult.aborted :=
  (claim4_generation_fatal wit_env4 2 3 1).mpr
    ⟨2, by decide, by decide, by decide⟩

/-- C9: the approximate-solver variant is never early-stopped: in every
completed sweep of either script it is invoked exactly once at every
sweep point — including every point after one at which it returned
`Failure` — and its recorded outcome is always that invocation's
result. -/
theorem claim9_approx_never_stopped (env : SweepEnv) (envA : SweepEnvA)
    (s1 e1 st1 s2 e2 st2 : Int) (ts : List StepTrace)
    (tsA : List StepTraceA) (h : sweepRun env s1 e1 st1 = some ts)
    (hA : sweepRunA envA s2 e2 st2 = some tsA) :
    (ts.length = (sweep_values s1 e1 st1).length ∧
      ∀ x ∈ ts, x.approxInvoked = true ∧
        x.approxTime = env.approxOutcome x.n1) ∧
    (tsA.length = (sweep_values s2 e2 st2).length ∧
      ∀ x ∈ tsA, x.approxInvoked = true ∧
        x.approxTime = envA.approxOutcome x.n2) :=
  ⟨⟨sweepLoop_length env (sweep_values s1 e1 st1) false ts h,
    sweepLoop_approx env (sweep_values s1 e1 st1) false ts h⟩,
   sweepLoopA_run envA (sweep_values s2 e2 st2) tsA hA⟩

/-- Witness for C9 on concrete sweeps of both scripts, with the exact
solver failing from the very first point. -/
theorem claim9_approx_never_stopped_witness :
    sweepRun wit_env1 2 3 1 = some wit_ts1 ∧
    sweepRunA wit_envA 2 3 1 = some wit_tsA ∧
    wit_ts1.length = (sweep_values 2 3 1).length ∧
    wit_tsA.length = (sweep_values 2 3 1).length := by
  have hmain := claim9_approx_never_stopped wit_env1 wit_envA 2 3 1 2 3 1
    wit_ts1 wit_tsA (by decide) (by decide)
  exact ⟨by decide, by decide, hmain.1.1, hmain.2.1⟩

/-- Ceiling division: for a positive divisor `b`, the integer ceiling of
the rational quotient `a / b` equals the (Euclidean = floor) integer
division `(a + b - 1) / b`. -/
theorem ediv_ceil (a b : ℤ) (hb : 0 < b) :
    ⌈(a : ℚ) / (b : ℚ)⌉ = (a + b - 1) / b := by
  have hb0 : (0 : ℚ) < (b : ℚ) := by exact_mod_cast hb
  have hdiv : b * ((a + b - 1) / b) + (a + b - 1) % b = a + b - 1 :=
    Int.ediv_add_emod _ _
  have hmod0 : 0 ≤ (a + b - 1) % b := Int.emod_nonneg _ (ne_of_gt hb)
  have hmodlt : (a + b - 1) % b + 1 ≤ b :=
    Int.lt_iff_add_one_le.mp (Int.emod_lt_of_pos _ hb)
  have hexp : b * ((a + b - 1) / b - 1) = b * ((a + b - 1) / b) - b := by
    ring
  have h1 : b * ((a + b - 1) / b - 1) < a := by linarith
  have h2 : a ≤ b * ((a + b - 1) / b) := by linarith
  rw [Int.ceil_eq_iff]
  constructor
  · rw [lt_div_iff₀ hb0]
    have hq : ((b : ℚ)) * (((a + b - 1) / b : ℤ) - 1) < (a : ℚ) := by
      exact_mod_cast h1
    push_cast at hq ⊢
    linarith
  · rw [div_le_iff₀ hb0]
    have hq : (a : ℚ) ≤ ((b : ℚ)) * (((a + b - 1) / b : ℤ)) := by
      exact_mod_cast h2
    linarith

/-- C3: for every sweep specification with a positive step and
`start ≤ end`, the derived sweep `list(range(start, end + 1, step))` is
strictly increasing with no duplicates, has length
`⌈(end − start + 1) / step⌉`, its first element equals `start`, and its
last element equals the largest value `≤ end` reachable from `start` by
the step (namely `start + step * ((end − start) / step)`). -/
theorem claim3_sweep_derivation (start e step : Int) (hstep : 0 < step)
    (hse : start ≤ e) :
    (sweep_values start e step).Pairwise (· < ·) ∧
    (sweep_values start e step).Nodup ∧
    ((sweep_values start e step).length : ℤ)
      = ⌈((e - start + 1 : ℤ) : ℚ) / ((step : ℤ) : ℚ)⌉ ∧
    (sweep_values start e step).head? = some start ∧
    (sweep_values start e step).getLast?
      = some (start + step * ((e - start) / step)) ∧
    start + step * ((e - start) / step) ≤ e ∧
    (∃ t : ℕ, start + step * ((e - start) / step)
      = start + step * (t : ℤ)) ∧
    (∀ v : ℤ, (∃ t : ℕ, v = start + step * (t : ℤ)) → v ≤ e →
      v ≤ start + step * ((e - start) / step)) := by
  have hstep0 : step ≠ 0 := ne_of_gt hstep
  set q : ℤ := (e - start) / step with hqdef
  have hdiv : step * q + (e - start) % step = e - start :=
    Int.ediv_add_emod _ _
  have hmod0 : 0 ≤ (e - start) % step := Int.emod_nonneg _ hstep0
  have hmodlt : (e - start) % step + 1 ≤ step :=
    Int.lt_iff_add_one_le.mp (Int.emod_lt_of_pos _ hstep)
  have hq0 : 0 ≤ q := Int.ediv_nonneg (by omega) (le_of_lt hstep)
  have hpos : 1 ≤ (e - start + step) / step := by
    rw [Int.le_ediv_iff_mul_le hstep]
    omega
  have hq1 : (e - start + step) / step = q + 1 := by
    have h := Int.add_mul_ediv_right (e - start) 1 hstep0
    simpa using h
  set n : ℕ := pyRangeLen start (e + 1) step with hndef
  have hlist : sweep_values start e step
      = (List.range n).map (fun i : ℕ => start + step * (i : ℤ)) := rfl
  have hargeq : e + 1 - start + step - 1 = e - start + step := by ring
  have hx0 : 0 ≤ (e - start + step) / step := by linarith
  have hlenn : (n : ℤ) = (e - start + step) / step := by
    simp only [hndef, pyRangeLen, hargeq, max_eq_right hx0]
    exact Int.toNat_of_nonneg hx0
  have hnq : (n : ℤ) = q + 1 := by rw [hlenn, hq1]
  have hn1 : 1 ≤ n := by omega
  have hlensw : (sweep_values start e step).length = n := by
    rw [hlist]
    simp
  have hpair : (sweep_values start e step).Pairwise (· < ·) := by
    rw [hlist, List.pairwise_map]
    refine List.Pairwise.imp ?_ (List.pairwise_lt_range n)
    intro a b hab
    have hab2 : (a : ℤ) < (b : ℤ) := by exact_mod_cast hab
    exact add_lt_add_left (mul_lt_mul_of_pos_left hab2 hstep) start
  have hnodup : (sweep_values start e step).Nodup :=
    List.Pairwise.imp (fun h => ne_of_lt h) hpair
  have hlenceil : ((sweep_values start e step).length : ℤ)
      = ⌈((e - start + 1 : ℤ) : ℚ) / ((step : ℤ) : ℚ)⌉ := by
    rw [hlensw, hlenn, ediv_ceil (e - start + 1) step hstep]
    congr 1
    ring
  have hhead : (sweep_values start e step).head? = some start := by
    rw [hlist, show n = (n - 1) + 1 from by omega,
      List.range_succ_eq_map]
    simp
  have hlast : (sweep_values start e step).getLast?
      = some (start + step * q) := by
    rw [hlist, List.getLast?_eq_getElem?]
    have hlm : ((List.range n).map
        (fun i : ℕ => start + step * (i : ℤ))).length = n := by
      simp
    rw [hlm, List.getElem?_map,
      List.getElem?_range (by omega : n - 1 < n)]
    simp only [Option.map_some']
    have hcast : ((n - 1 : ℕ) : ℤ) = q := by omega
    rw [hcast]
  have hLle : start + step * q ≤ e := by linarith
  have hreach : ∃ t : ℕ, start + step * q = start + step * (t : ℤ) :=
    ⟨q.toNat, by rw [Int.toNat_of_nonneg hq0]⟩
  have hmaxi : ∀ v : ℤ, (∃ t : ℕ, v = start + step * (t : ℤ)) → v ≤ e →
      v ≤ start + step * q := by
    rintro v ⟨t, rfl⟩ hve
    have h1 : step * (t : ℤ) ≤ step * q + (e - start) % step := by linarith
    have hqs : step * (q + 1) = step * q + step := by ring
    have h2 : step * (t : ℤ) < step * (q + 1) := by linarith
    have h3 : (t : ℤ) < q + 1 := lt_of_mul_lt_mul_left h2 (le_of_lt hstep)
    have h4 : (t : ℤ) ≤ q := by omega
    have h5 : step * (t : ℤ) ≤ step * q :=
      mul_le_mul_of_nonneg_left h4 (le_of_lt hstep)
    linarith
  exact ⟨hpair, hnodup, hlenceil, hhead, hlast, hLle, hreach, hmaxi⟩

/-- Witness for C3 at the concrete sweep specification
`(start, end, step) = (2, 5, 2)`, whose derived sweep is `[2, 4]`. -/
theorem claim3_sweep_derivation_witness :
    (0 : ℤ) < 2 ∧ (2 : ℤ) ≤ 5 ∧
    ((sweep_values 2 5 2).Pairwise (· < ·) ∧
     (sweep_values 2 5 2).Nodup ∧
     ((sweep_values 2 5 2).length : ℤ)
       = ⌈((5 - 2 + 1 : ℤ) : ℚ) / ((2 : ℤ) : ℚ)⌉ ∧
     (sweep_values 2 5 2).head? = some 2 ∧
     (sweep_values 2 5 2).getLast? = some (2 + 2 * ((5 - 2) / 2)) ∧
     (2 : ℤ) + 2 * ((5 - 2) / 2) ≤ 5 ∧
     (∃ t : ℕ, 2 + 2 * ((5 - 2) / 2) = 2 + 2 * (t : ℤ)) ∧
     (∀ v : ℤ, (∃ t : ℕ, v = 2 + 2 * (t : ℤ)) → v ≤ 5 →
       v ≤ 2 + 2 * ((5 - 2) / 2))) :=
  ⟨by norm_num, by norm_num,
   claim3_sweep_derivation 2 5 2 (by norm_num) (by norm_num)⟩

end Harness
